import Mathlib

/-!
Verification of the prompt-orchestration and AI-access layer of the
USA Living Guide web application (`src/app.py`).

The Python code is shallowly embedded: Python `str` values are modelled as
`List Char` (a sequence of Unicode code points, exactly Python's model of
`str`), the two process-wide mutable caches are modelled as explicit state
records threaded through the functions, and every outbound network
interaction is modelled by an oracle value describing the remote side's
behaviour (exception, non-success status, or a successful body), together
with a count of network requests issued.
-/

set_option maxRecDepth 8000

namespace USAGuide

/-- A character is kept by the sanitizer's filter iff it is ASCII
(code point < 128) or lies in one of the two whitelisted emoji ranges
(`0x1F600-0x1F64F`, `0x1F300-0x1F5FF`); from the generator expression at
`src/app.py` lines 199-202. -/
def allowedChar (c : Char) : Bool :=
  decide (c.toNat < 128) ||
    (decide (0x1F600 ≤ c.toNat) && decide (c.toNat ≤ 0x1F64F)) ||
    (decide (0x1F300 ≤ c.toNat) && decide (c.toNat ≤ 0x1F5FF))

/-- The set of characters Python's `str.strip()` removes
(the `Py_UNICODE_ISSPACE` whitespace set). -/
def pyIsSpace (c : Char) : Bool :=
  decide (c.toNat ∈ [9, 10, 11, 12, 13, 28, 29, 30, 31, 32, 0x85, 0xA0, 0x1680,
    0x2000, 0x2001, 0x2002, 0x2003, 0x2004, 0x2005, 0x2006, 0x2007, 0x2008,
    0x2009, 0x200A, 0x2028, 0x2029, 0x202F, 0x205F, 0x3000])

/-- Python's `text.replace('**', '')` (src/app.py line 197): scan left to
right, removing each non-overlapping occurrence of the two-character
bold-markup delimiter. -/
def replaceBold : List Char → List Char
  | [] => []
  | [c] => [c]
  | a :: b :: t =>
    if a == '*' && b == '*' then replaceBold t
    else a :: replaceBold (b :: t)

/-- Predicate: `hasBB l = true` iff `l` contains two adjacent asterisks, i.e. the
bold-markup delimiter `"**"` occurs in `l` as a contiguous substring
(see `hasBB_true_iff`). -/
def hasBB : List Char → Bool
  | [] => false
  | [_] => false
  | a :: b :: t => (a == '*' && b == '*') || hasBB (b :: t)

/-- Python's `text.strip()`: remove leading and trailing whitespace.
Implemented as: drop trailing whitespace (via reverse), then leading. -/
def pyStrip (l : List Char) : List Char :=
  (l.reverse.dropWhile pyIsSpace).reverse.dropWhile pyIsSpace

/-- The sanitization applied to a successful model response
(src/app.py lines 197-204): strip the bold-markup delimiters, filter to
ASCII-or-whitelisted-emoji characters, then trim whitespace. -/
def sanitize (l : List Char) : List Char :=
  pyStrip ((replaceBold l).filter allowedChar)

/-! ### Lemmas about `replaceBold`, `hasBB` and `pyStrip` -/

lemma replaceBold_cons_ne {b : Char} (t : List Char) (hb : (b == '*') = false) :
    replaceBold (b :: t) = b :: replaceBold t := by
  cases t with
  | nil => rfl
  | cons c t' => simp [replaceBold, hb]

lemma hasBB_cons_of {l : List Char} (c : Char) (h : hasBB l = true) :
    hasBB (c :: l) = true := by
  match l with
  | [] => simp [hasBB] at h
  | x :: xs => simp [hasBB, h]

lemma hasBB_replaceBold (l : List Char) : hasBB (replaceBold l) = false := by
  induction l using replaceBold.induct with
  | case1 => rfl
  | case2 c => rfl
  | case3 a b t hab ih => simpa [replaceBold, hab] using ih
  | case4 a b t hab ih =>
    rw [replaceBold, if_neg hab]
    by_cases ha : a = '*'
    · have hb : ¬ b = '*' := by
        intro hbE
        exact hab (by simp [ha, hbE])
      rw [replaceBold_cons_ne t (by simpa using hb)] at ih ⊢
      rw [hasBB, Bool.or_eq_false_iff]
      exact ⟨by simp [hb], ih⟩
    · cases hX : replaceBold (b :: t) with
      | nil => rfl
      | cons x xs =>
        rw [hX] at ih
        rw [hasBB, Bool.or_eq_false_iff]
        exact ⟨by simp [ha], ih⟩

lemma replaceBold_eq_self {l : List Char} (h : hasBB l = false) : replaceBold l = l := by
  induction l using replaceBold.induct with
  | case1 => rfl
  | case2 c => rfl
  | case3 a b t hab ih => simp [hasBB, hab] at h
  | case4 a b t hab ih =>
    have h' : hasBB (b :: t) = false := by
      rw [hasBB, Bool.or_eq_false_iff] at h
      exact h.2
    rw [replaceBold, if_neg hab, ih h']

lemma mem_replaceBold {l : List Char} {c : Char} (h : c ∈ replaceBold l) : c ∈ l := by
  induction l using replaceBold.induct with
  | case1 => simp [replaceBold] at h
  | case2 d => simpa [replaceBold] using h
  | case3 a b t hab ih =>
    rw [replaceBold, if_pos hab] at h
    exact List.mem_cons_of_mem _ (List.mem_cons_of_mem _ (ih h))
  | case4 a b t hab ih =>
    rw [replaceBold, if_neg hab] at h
    rcases List.mem_cons.mp h with h | h
    · exact h ▸ List.mem_cons_self _ _
    · exact List.mem_cons_of_mem _ (ih h)

lemma hasBB_true_iff {l : List Char} :
    hasBB l = true ↔ ('*' :: '*' :: []) <:+: l := by
  constructor
  · intro h
    induction l using hasBB.induct with
    | case1 => simp [hasBB] at h
    | case2 c => simp [hasBB] at h
    | case3 a b t ih =>
      rw [hasBB, Bool.or_eq_true] at h
      rcases h with h | h
      · rw [Bool.and_eq_true, beq_iff_eq, beq_iff_eq] at h
        exact ⟨[], t, by simp [h.1, h.2]⟩
      · obtain ⟨s, t', e⟩ := ih h
        exact ⟨a :: s, t', by simp [← e]⟩
  · rintro ⟨s, t, rfl⟩
    induction s with
    | nil => simp [hasBB]
    | cons c s ih => simpa using hasBB_cons_of c (by simpa using ih)

lemma hasBB_false_sub {l l' : List Char} (hs : l' <:+: l) (hl : hasBB l = false) :
    hasBB l' = false := by
  cases hE : hasBB l' with
  | false => rfl
  | true =>
    have h3 : ('*' :: '*' :: []) <:+: l := (hasBB_true_iff.mp hE).trans hs
    rw [hasBB_true_iff.mpr h3] at hl
    exact absurd hl (by simp)

lemma dropWhile_head_false (p : Char → Bool) (l : List Char) :
    l.dropWhile p = [] ∨ ∃ c t, l.dropWhile p = c :: t ∧ p c = false := by
  induction l with
  | nil => exact Or.inl rfl
  | cons c t ih =>
    by_cases h : p c
    · simpa [List.dropWhile_cons, h] using ih
    · exact Or.inr ⟨c, t, by simp [List.dropWhile_cons, h], by simpa using h⟩

lemma dropWhile_dropWhile (p : Char → Bool) (l : List Char) :
    (l.dropWhile p).dropWhile p = l.dropWhile p := by
  rcases dropWhile_head_false p l with h | ⟨c, t, h, hc⟩
  · simp [h]
  · simp [h, List.dropWhile_cons, hc]

lemma dropWhile_sfx (p : Char → Bool) (l : List Char) :
    ∃ s, s ++ l.dropWhile p = l := by
  induction l with
  | nil => exact ⟨[], rfl⟩
  | cons c t ih =>
    by_cases h : p c
    · obtain ⟨s, hs⟩ := ih
      exact ⟨c :: s, by simp [List.dropWhile_cons, h, hs]⟩
    · exact ⟨[], by simp [List.dropWhile_cons, h]⟩

lemma pyStrip_sub (l : List Char) : pyStrip l <:+: l := by
  obtain ⟨s1, hs1⟩ := dropWhile_sfx pyIsSpace l.reverse
  obtain ⟨s2, hs2⟩ := dropWhile_sfx pyIsSpace (l.reverse.dropWhile pyIsSpace).reverse
  refine ⟨s2, s1.reverse, ?_⟩
  have hs2' : s2 ++ pyStrip l = (l.reverse.dropWhile pyIsSpace).reverse := hs2
  conv_rhs => rw [← List.reverse_reverse l, ← hs1, List.reverse_append, ← hs2']

lemma mem_pyStrip {l : List Char} {c : Char} (h : c ∈ pyStrip l) : c ∈ l := by
  obtain ⟨s, t, e⟩ := pyStrip_sub l
  rw [← e]
  simp [h]

lemma pyStrip_idem (l : List Char) : pyStrip (pyStrip l) = pyStrip l := by
  obtain ⟨s2, hs2⟩ := dropWhile_sfx pyIsSpace (l.reverse.dropWhile pyIsSpace).reverse
  have hs2' : s2 ++ pyStrip l = (l.reverse.dropWhile pyIsSpace).reverse := hs2
  have hFrev : l.reverse.dropWhile pyIsSpace = (pyStrip l).reverse ++ s2.reverse := by
    conv_lhs => rw [← List.reverse_reverse (l.reverse.dropWhile pyIsSpace), ← hs2']
    rw [List.reverse_append]
  have hstep : (pyStrip l).reverse.dropWhile pyIsSpace = (pyStrip l).reverse := by
    cases hCE : (pyStrip l).reverse with
    | nil => rfl
    | cons c r =>
      rcases dropWhile_head_false pyIsSpace l.reverse with h | ⟨c', t', h, hc'⟩
      · rw [h, hCE] at hFrev
        exact absurd hFrev.symm (by simp)
      · rw [h, hCE] at hFrev
        have h2 : c' :: t' = c :: (r ++ s2.reverse) := by simpa using hFrev
        injection h2 with hcc _
        rw [List.dropWhile_cons, if_neg (by rw [← hcc]; simp [hc'])]
  have key : ((pyStrip l).reverse.dropWhile pyIsSpace).reverse.dropWhile pyIsSpace = pyStrip l := by
    rw [hstep, List.reverse_reverse]
    have hC : pyStrip l = (l.reverse.dropWhile pyIsSpace).reverse.dropWhile pyIsSpace := rfl
    conv_lhs => rw [hC]
    rw [dropWhile_dropWhile, ← hC]
  exact key

/-! ### Lemmas about `sanitize` -/

lemma sanitize_mem_allowed {l : List Char} {c : Char} (h : c ∈ sanitize l) :
    allowedChar c = true :=
  (List.mem_filter.mp (mem_pyStrip h)).2

lemma sanitize_eq_of_all_allowed {l : List Char} (h : ∀ c ∈ l, allowedChar c = true) :
    sanitize l = pyStrip (replaceBold l) := by
  rw [sanitize, List.filter_eq_self.mpr (fun c hc => h c (mem_replaceBold hc))]

lemma hasBB_sanitize_false {l : List Char} (h : ∀ c ∈ l, allowedChar c = true) :
    hasBB (sanitize l) = false := by
  rw [sanitize_eq_of_all_allowed h]
  exact hasBB_false_sub (pyStrip_sub _) (hasBB_replaceBold l)

/-- Example input whose characters are all ASCII, used by witnesses. -/
def exAllowed : List Char := ("ok **WOW* go  ").data

/-- Example input with a non-ASCII character between two asterisks: the
filter drops it and re-creates the bold delimiter. -/
def exBad : List Char := ("*é*").data

/-- C1 (amended): every character of the sanitizer's output is ASCII or
lies in one of the two whitelisted emoji ranges; and for inputs whose
characters are all ASCII-or-whitelisted, the output never contains the
two-character bold-markup delimiter. -/
theorem sanitize_allowed_and_nobold (l : List Char) :
    (∀ c ∈ sanitize l, allowedChar c = true) ∧
    ((∀ c ∈ l, allowedChar c = true) → ¬ (('*' :: '*' :: []) <:+: sanitize l)) := by
  refine ⟨fun c hc => sanitize_mem_allowed hc, fun hall hinf => ?_⟩
  rw [← hasBB_true_iff, hasBB_sanitize_false hall] at hinf
  exact absurd hinf (by simp)

/-- C1 witness: the amended theorem applied at the concrete input `exAllowed`. -/
theorem sanitize_allowed_and_nobold_witness :
    (∀ c ∈ exAllowed, allowedChar c = true) ∧
    (∀ c ∈ sanitize exAllowed, allowedChar c = true) ∧
    ¬ (('*' :: '*' :: []) <:+: sanitize exAllowed) :=
  ⟨by decide, (sanitize_allowed_and_nobold exAllowed).1,
    (sanitize_allowed_and_nobold exAllowed).2 (by decide)⟩

/-- C1 counterexample: on input `"*é*"` the sanitizer's output is exactly
`"**"`, which contains the bold-markup delimiter — the filter step drops
the non-ASCII character sitting between the two asterisks and thereby
re-creates the delimiter after the removal step has already run. -/
theorem sanitize_bold_cex : ('*' :: '*' :: []) <:+: sanitize exBad :=
  hasBB_true_iff.mp (by decide)

/-- C3 (amended): the sanitization step is idempotent on every input whose
characters are all ASCII or whitelisted emoji. -/
theorem sanitize_idem_allowed (l : List Char) (h : ∀ c ∈ l, allowedChar c = true) :
    sanitize (sanitize l) = sanitize l := by
  have hallS : ∀ c ∈ sanitize l, allowedChar c = true := fun c hc => sanitize_mem_allowed hc
  calc sanitize (sanitize l)
      = pyStrip ((replaceBold (sanitize l)).filter allowedChar) := rfl
    _ = pyStrip ((sanitize l).filter allowedChar) := by
        rw [replaceBold_eq_self (hasBB_sanitize_false h)]
    _ = pyStrip (sanitize l) := by rw [List.filter_eq_self.mpr hallS]
    _ = sanitize l := by
        rw [sanitize_eq_of_all_allowed h, pyStrip_idem]

/-- C3 witness: the amended theorem applied at the concrete input `exAllowed`. -/
theorem sanitize_idem_allowed_witness :
    (∀ c ∈ exAllowed, allowedChar c = true) ∧
    sanitize (sanitize exAllowed) = sanitize exAllowed :=
  ⟨by decide, sanitize_idem_allowed exAllowed (by decide)⟩

/-- C3 counterexample: sanitization is not idempotent on `"*é*"`: one
application yields `"**"`, a second application yields `""`. -/
theorem sanitize_idem_cex : sanitize (sanitize exBad) ≠ sanitize exBad := by decide

/-! ### The reference content cache (src/app.py lines 95-155)

The process-wide dictionary `_cache = {"content": "", "last": 0}` is modelled
as an explicit `BlogCache` record; each run of `_fetch_blog` maps the prior
cache to the next one.  The outcome of the network fetch and HTML parsing is
modelled by an oracle: either some exception was raised somewhere in the
`try` block, or every listing URL produced either a non-success HTTP status
(skipped) or a list of extracted post-block texts. -/

/-- The `_cache` singleton: `{"content": ..., "last": ...}`. -/
structure BlogCache where
  content : List Char
  last : Int
  deriving DecidableEq, Repr

/-- Behaviour of one listing URL during `_fetch_blog`: a non-success HTTP
status (logged and skipped), or a success whose parsed post blocks have the
given `get_text` results, in document order. -/
inductive UrlResult where
  | notOk : UrlResult
  | ok : List (List Char) → UrlResult
  deriving DecidableEq, Repr

/-- Overall behaviour of one `_fetch_blog` run: an exception raised anywhere
inside the `try` block (network error, parse error, ...), or a normal run
with the given per-URL results. -/
inductive FetchOutcome where
  | exc : FetchOutcome
  | ok : List UrlResult → FetchOutcome

/-- The hardcoded static fallback corpus `FALLBACK` (src/app.py lines
97-111), byte for byte, including the leading and trailing newline of the
triple-quoted literal. -/
def fallbackStr : String :=
  "\n[TAX] Rideshare tax forms are released at the end of January. 1099-K, 1099-NEC required.\nDon\x27t write \"exempt\" on W-4, you\x27ll lose your refund.\n[VISA] F-1 holders can travel to neighboring countries (Automatic Visa Revalidation).\nJ-1 visa application: Get DS-2019, pay SEVIS, schedule consulate appointment.\n[PHONE] You can get a free line through the Lifeline program.\nGet a US number without SSN using Google Voice.\n[HEALTH] NJ Medicaid is free for low income. Free clinics available in NY.\n[BANK] Chase and BofA open accounts with passport. Start credit score with a secured card.\n[RIDESHARE] Uber/Lyft requires SSN + driver\x27s license + car insurance. Expect 1099 form in January.\n[HOUSING] NJ Newark/Paterson 1BR $900-1200. Try Craigslist, Zillow, Facebook Marketplace.\n[WISE] International transfer limits $50k/year. Wise > Western Union.\n[LICENSE] NJ has 6 Points of ID system. Even undocumented can get a license.\n[FLIGHTS] International flights from NJ $400-700. Pay excess baggage 24 hours before flight for cheaper rate.\n"

/-- The fallback corpus as a character sequence. -/
def fallbackData : List Char := fallbackStr.data

/-- The text appended to `combined` for one post block `p` (src/app.py
lines 134-137): `text[:800] + "\n---\n"` when `len(text) > 100`, nothing
otherwise. -/
def postContribution (text : List Char) : List Char :=
  if 100 < text.length then text.take 800 ++ ("\n---\n").data else []

/-- What one URL contributes to `combined`: nothing on non-success status,
otherwise the contributions of the first 15 post blocks. -/
def urlContribution : UrlResult → List Char
  | UrlResult.notOk => []
  | UrlResult.ok posts => ((posts.take 15).map postContribution).flatten

/-- The local variable `combined` at the end of the URL loop. -/
def combinedOf (rs : List UrlResult) : List Char :=
  (rs.map urlContribution).flatten

/-- One run of `_fetch_blog` (src/app.py lines 113-143) over the cache:
on an exception, `content` is set to the fallback corpus (and `last` is NOT
touched — the except branch assigns only `_cache["content"]`); on a normal
run, the cache is replaced by `combined[:6000]` with the current time iff
`combined` is non-empty, and left completely unchanged otherwise. -/
def fetch_blog (o : FetchOutcome) (now : Int) (c : BlogCache) : BlogCache :=
  match o with
  | FetchOutcome.exc => { c with content := fallbackData }
  | FetchOutcome.ok rs =>
    if combinedOf rs = [] then c
    else { content := (combinedOf rs).take 6000, last := now }

/-- The reader `get_context` (src/app.py lines 152-155): the fallback corpus while the
cache content is empty, the cached content otherwise. -/
def get_context (c : BlogCache) : List Char :=
  if c.content = [] then fallbackData else c.content

/-- C4: if `_fetch_blog` raises an exception then, whatever the cache held
before, the cache content is the static fallback corpus and a subsequent
`get_context()` returns exactly that corpus, byte for byte. -/
theorem fetch_exc_resets_to_fallback (now : Int) (c : BlogCache) :
    (fetch_blog FetchOutcome.exc now c).content = fallbackData ∧
    get_context (fetch_blog FetchOutcome.exc now c) = fallbackData := by
  refine ⟨rfl, ?_⟩
  show (if fallbackData = [] then fallbackData else fallbackData) = fallbackData
  exact ite_self _

/-- C5: `get_context()` never returns the empty string: it returns the
fallback corpus when the cache content is empty (in particular on the very
first call, before any refresh) and the cached content otherwise; and no
`_fetch_blog` run ever stores an empty content (each run either leaves the
content unchanged or stores a non-empty string). -/
theorem get_context_nonempty (o : FetchOutcome) (now : Int) (c : BlogCache) :
    get_context c ≠ [] ∧
    get_context c = (if c.content = [] then fallbackData else c.content) ∧
    ((fetch_blog o now c).content = c.content ∨ (fetch_blog o now c).content ≠ []) := by
  refine ⟨?_, rfl, ?_⟩
  · rw [get_context]
    by_cases h : c.content = []
    · rw [if_pos h]
      decide
    · rwa [if_neg h]
  · cases o with
    | exc =>
      right
      show fallbackData ≠ []
      decide
    | ok rs =>
      by_cases h : combinedOf rs = []
      · left
        show (if combinedOf rs = [] then c
          else { content := (combinedOf rs).take 6000, last := now } : BlogCache).content
            = c.content
        rw [if_pos h]
      · right
        show ¬ (if combinedOf rs = [] then c
          else { content := (combinedOf rs).take 6000, last := now } : BlogCache).content = []
        rw [if_neg h]
        simpa using h

/-- C9: a `_fetch_blog` run that completes without an exception but collects
no content (`combined` empty — e.g. every source had a non-success status,
or no post block exceeded 100 characters) leaves both cache fields
completely unchanged; previously cached content is not overwritten. -/
theorem fetch_empty_frame (rs : List UrlResult) (now : Int) (c : BlogCache)
    (h : combinedOf rs = []) : fetch_blog (FetchOutcome.ok rs) now c = c := by
  show (if combinedOf rs = [] then c else _) = c
  rw [if_pos h]

/-- Example cache holding previously fetched good content. -/
def exCache : BlogCache := { content := ("older good content").data, last := 5 }

/-- Per-URL results where one source fails with a non-success status and the
other yields only a post block of no more than 100 characters. -/
def exResults : List UrlResult :=
  [UrlResult.notOk, UrlResult.ok [("a short post").data]]

/-- C9 witness: the frame theorem applied to the concrete run `exResults`
over the concrete cache `exCache`. -/
theorem fetch_empty_frame_witness :
    combinedOf exResults = [] ∧
    fetch_blog (FetchOutcome.ok exResults) 77 exCache = exCache :=
  ⟨by decide, fetch_empty_frame exResults 77 exCache (by decide)⟩

/-! ### The credential provider (src/app.py lines 33-58)

`_token_cache = {'value': '', 'expires_at': 0}` is modelled as an explicit
`TokenCache` record.  `time.time()` is passed in as `now`.  The environment
override `GOOGLE_OAUTH_ACCESS_TOKEN` is an `Option` (`none` = unset; the
empty string is falsy in Python, so both are "absent").  The metadata
service's behaviour is an oracle `MetaResult`; a malformed JSON body or a
non-integer `expires_in` raises inside the `try` block and is the `exc`
case.  The result carries, besides the returned token and the new cache, a
count of metadata HTTP requests the call issued. -/

/-- The `_token_cache` singleton: `{'value': ..., 'expires_at': ...}`. -/
structure TokenCache where
  value : List Char
  expires_at : Int
  deriving DecidableEq, Repr

/-- Behaviour of the metadata-service call: a raised exception anywhere in
the `try` block (network error, malformed JSON, non-integer `expires_in`),
a non-success HTTP status, or a success whose parsed body yields the given
`access_token` (the empty string when the field is absent, via
`data.get('access_token', '')`) and integer `expires_in` (300 when the
field is absent). -/
inductive MetaResult where
  | exc : MetaResult
  | notOk : MetaResult
  | ok : List Char → Int → MetaResult
  deriving DecidableEq, Repr

/-- Result of one `get_access_token` call: the returned token string, the
token cache after the call, and how many metadata requests were issued. -/
structure TokenResult where
  token : List Char
  cache : TokenCache
  requests : Nat
  deriving DecidableEq, Repr

/-- The credential provider `get_access_token` (src/app.py lines 35-58). -/
def get_access_token (now : Int) (env_token : Option (List Char))
    (meta : MetaResult) (c : TokenCache) : TokenResult :=
  if c.value ≠ [] ∧ c.expires_at > now then
    { token := c.value, cache := c, requests := 0 }
  else if env_token.getD [] ≠ [] then
    { token := env_token.getD [],
      cache := { value := env_token.getD [], expires_at := now + 3300 },
      requests := 0 }
  else
    match meta with
    | MetaResult.exc => { token := [], cache := c, requests := 1 }
    | MetaResult.notOk => { token := [], cache := c, requests := 1 }
    | MetaResult.ok tok exp =>
      { token := tok,
        cache := { value := tok, expires_at := now + max 30 (exp - 30) },
        requests := 1 }

/-- Every `get_access_token` call issues at most one metadata request. -/
lemma get_access_token_requests_le (now : Int) (env_token : Option (List Char))
    (meta : MetaResult) (c : TokenCache) :
    (get_access_token now env_token meta c).requests ≤ 1 := by
  rw [get_access_token.eq_def]
  by_cases h1 : c.value ≠ [] ∧ c.expires_at > now
  · rw [if_pos h1]
    exact Nat.zero_le 1
  · rw [if_neg h1]
    by_cases h2 : env_token.getD [] ≠ []
    · rw [if_pos h2]
      exact Nat.zero_le 1
    · rw [if_neg h2]
      cases meta <;> exact Nat.le_refl 1

/-- When the cached value is non-empty and unexpired, `get_access_token`
returns it, leaves the cache unchanged and issues no request. -/
lemma get_access_token_hit {now : Int} {env_token : Option (List Char)}
    {meta : MetaResult} {c : TokenCache}
    (h1 : c.value ≠ []) (h2 : now < c.expires_at) :
    get_access_token now env_token meta c = { token := c.value, cache := c, requests := 0 } := by
  rw [get_access_token.eq_def, if_pos ⟨h1, h2⟩]

/-- C7: credential acquisition is total (every call returns a string) and
converts every failure of the acquisition path — a raised exception during
the metadata call (including a malformed JSON body) or a non-success HTTP
status — to the empty string, leaving the cache unchanged.  The hypotheses
say the call actually reaches the metadata request: no valid cached value
and no environment override. -/
theorem get_access_token_failure_empty (now : Int) (env_token : Option (List Char))
    (meta : MetaResult) (c : TokenCache)
    (hmiss : ¬ (c.value ≠ [] ∧ c.expires_at > now))
    (henv : env_token.getD [] = [])
    (hfail : meta = MetaResult.exc ∨ meta = MetaResult.notOk) :
    (get_access_token now env_token meta c).token = [] ∧
    (get_access_token now env_token meta c).cache = c := by
  rw [get_access_token.eq_def, if_neg hmiss, if_neg (by simp [henv])]
  rcases hfail with h | h <;> rw [h] <;> exact ⟨rfl, rfl⟩

/-- C7 witness: a cold cache, no environment override, and a metadata
service that raises: the call returns the empty string. -/
theorem get_access_token_failure_empty_witness :
    (¬ (({ value := [], expires_at := 0 } : TokenCache).value ≠ [] ∧
        ({ value := [], expires_at := 0 } : TokenCache).expires_at > 7)) ∧
    (get_access_token 7 none MetaResult.exc { value := [], expires_at := 0 }).token = [] ∧
    (get_access_token 7 none MetaResult.exc { value := [], expires_at := 0 }).cache
      = { value := [], expires_at := 0 } :=
  ⟨by decide,
    get_access_token_failure_empty 7 none MetaResult.exc { value := [], expires_at := 0 }
      (by decide) rfl (Or.inl rfl)⟩

/-- C8: if the token cache holds a non-empty value whose expiry lies in the
future, a call returns that cached value, leaves the cache unchanged and
issues no metadata request; hence any two consecutive calls whose second
call happens while the first call's resulting cache is valid issue at most
one metadata request in total. -/
theorem token_cache_hit_no_request (t2 : Int) (env2 : Option (List Char))
    (meta2 : MetaResult) (c1 : TokenCache)
    (h1 : c1.value ≠ []) (h2 : t2 < c1.expires_at) :
    get_access_token t2 env2 meta2 c1 = { token := c1.value, cache := c1, requests := 0 } ∧
    ∀ (t1 : Int) (env1 : Option (List Char)) (meta1 : MetaResult) (c0 : TokenCache),
      (get_access_token t1 env1 meta1 c0).cache = c1 →
      (get_access_token t1 env1 meta1 c0).requests
        + (get_access_token t2 env2 meta2 c1).requests ≤ 1 := by
  have hhit := @get_access_token_hit t2 env2 meta2 c1 h1 h2
  refine ⟨hhit, fun t1 env1 meta1 c0 _ => ?_⟩
  rw [hhit]
  simpa using get_access_token_requests_le t1 env1 meta1 c0

/-- Concrete valid token cache used by the C8 witness. -/
def exTokenCache : TokenCache := { value := ("tok").data, expires_at := 100 }

/-- C8 witness: with a valid cached token, a first call at time 0 (a cache
hit producing `exTokenCache` again) and a second call at time 50 issue at
most one metadata request in total, and the second call returns the cached
value. -/
theorem token_cache_hit_no_request_witness :
    (exTokenCache.value ≠ [] ∧ (50 : Int) < exTokenCache.expires_at) ∧
    (get_access_token 50 none MetaResult.exc exTokenCache
      = { token := exTokenCache.value, cache := exTokenCache, requests := 0 }) ∧
    ((get_access_token 0 none MetaResult.exc exTokenCache).cache = exTokenCache →
      (get_access_token 0 none MetaResult.exc exTokenCache).requests
        + (get_access_token 50 none MetaResult.exc exTokenCache).requests ≤ 1) :=
  ⟨⟨by decide, by decide⟩,
    (token_cache_hit_no_request 50 none MetaResult.exc exTokenCache (by decide) (by decide)).1,
    (token_cache_hit_no_request 50 none MetaResult.exc exTokenCache (by decide) (by decide)).2
      0 none MetaResult.exc exTokenCache⟩

/-- C10: when the metadata service answers successfully but the JSON body
lacks the `access_token` field (`data.get('access_token', '')` yields the
empty string), the call caches an empty token value with a strictly future
expiry and returns the empty string; and because the cache-hit test requires
a non-empty cached value, any later call with no environment override
re-issues a metadata request instead of serving the cached empty token. -/
theorem empty_token_cached_then_refetch (now exp : Int) (env_token : Option (List Char))
    (c : TokenCache)
    (hmiss : ¬ (c.value ≠ [] ∧ c.expires_at > now))
    (henv : env_token.getD [] = []) :
    get_access_token now env_token (MetaResult.ok [] exp) c
      = { token := [], cache := { value := [], expires_at := now + max 30 (exp - 30) },
          requests := 1 } ∧
    now < now + max 30 (exp - 30) ∧
    ∀ (t2 : Int) (env2 : Option (List Char)) (meta2 : MetaResult),
      env2.getD [] = [] →
      (get_access_token t2 env2 meta2
        { value := [], expires_at := now + max 30 (exp - 30) }).requests = 1 := by
  refine ⟨?_, ?_, fun t2 env2 meta2 henv2 => ?_⟩
  · rw [get_access_token.eq_def, if_neg hmiss, if_neg (by simp [henv])]
  · have : (30 : Int) ≤ max 30 (exp - 30) := le_max_left _ _
    omega
  · rw [get_access_token.eq_def, if_neg (by simp), if_neg (by simp [henv2])]
    cases meta2 <;> rfl

/-- C10 witness: concrete instance of the empty-`access_token` scenario
(cold cache, `expires_in` 300, second call at time 40 with a failing
metadata service re-issues a request). -/
theorem empty_token_cached_then_refetch_witness :
    (¬ (({ value := [], expires_at := 0 } : TokenCache).value ≠ [] ∧
        ({ value := [], expires_at := 0 } : TokenCache).expires_at > 10)) ∧
    get_access_token 10 none (MetaResult.ok [] 300) { value := [], expires_at := 0 }
      = { token := [], cache := { value := [], expires_at := 10 + max 30 (300 - 30) },
          requests := 1 } ∧
    (10 : Int) < 10 + max 30 (300 - 30) ∧
    (get_access_token 40 none MetaResult.exc
      { value := [], expires_at := 10 + max 30 (300 - 30) }).requests = 1 :=
  ⟨by decide,
    (empty_token_cached_then_refetch 10 300 none { value := [], expires_at := 0 } (by decide) rfl).1,
    (empty_token_cached_then_refetch 10 300 none { value := [], expires_at := 0 } (by decide) rfl).2.1,
    (empty_token_cached_then_refetch 10 300 none { value := [], expires_at := 0 } (by decide) rfl).2.2
      40 none MetaResult.exc rfl⟩

/-! ### Python `str.splitlines` -/

/-- The line-boundary characters of Python's `str.splitlines`:
`\n`, `\r` (and `\r\n` as one boundary), `\v`, `\f`, `\x1c`, `\x1d`,
`\x1e`, `\x85`, ` `, ` `. -/
def isLineBreak (c : Char) : Bool :=
  decide (c.toNat ∈ [10, 13, 11, 12, 28, 29, 30, 0x85, 0x2028, 0x2029])

/-- Helper for `pySplitlines`: `acc` holds the current line, reversed. -/
def splitlinesAux : List Char → List Char → List (List Char)
  | [], acc => if acc.isEmpty then [] else [acc.reverse]
  | '\r' :: '\n' :: t, acc => acc.reverse :: splitlinesAux t []
  | c :: t, acc =>
    if isLineBreak c then acc.reverse :: splitlinesAux t []
    else splitlinesAux t (c :: acc)

/-- Python's `str.splitlines()`: split at line boundaries, treating `\r\n`
as a single boundary; a trailing boundary does not produce a final empty
line. -/
def pySplitlines (l : List Char) : List (List Char) :=
  splitlinesAux l []

/-! ### The fallback responder and the AI entry point
(src/app.py lines 158-204)

`call_vertex` performs one outbound generation request; its observable
behaviour is modelled by the `VertexResult` oracle (the endpoint URL and
the JSON payload are what is sent over the wire and do not affect the
caller-visible result, so they are not modelled).  `llm` is the top-level
entry point `answer(task_system_prompt, user_question)` of the spec.  The
`requests` field counts every outbound network request the call issues
(metadata requests plus generation requests). -/

/-- The newline separator as a character list. -/
def nl : List Char := ("\n").data

/-- First segment of the fallback reply (src/app.py line 165), up to and
including the blank line before the question echo. -/
def fallbackPreamble : List Char :=
  ("⚠️ Vertex AI configuration is missing, so showing a quick guide summary instead of an AI response.\n\n").data

/-- The question-echo tag of the fallback reply (line 166). -/
def questionTag : List Char := ("📌 Question: ").data

/-- The fixed text between the echoed question and the excerpt
(lines 167-169). -/
def fallbackTail : List Char :=
  ("\n✅ Full AI answers will return once you add GOOGLE_CLOUD_PROJECT and VERTEX_LOCATION to Cloud Run env variables.\n✅ Grant the Vertex AI User (roles/aiplatform.user) role to the service account.\n\nQuick Info:\n").data

/-- The non-blank, non-separator lines of the current reference content
(src/app.py lines 159-162): keep each original line whose stripped form is
non-empty and differs from `"---"`. -/
def fallbackKeptLines (c : BlogCache) : List (List Char) :=
  (pySplitlines (get_context c)).filter
    (fun ln => !(pyStrip ln).isEmpty && !(pyStrip ln == ("---").data))

/-- The first 8 lines of the joined kept lines (line 163). -/
def fallbackSampleLines (c : BlogCache) : List (List Char) :=
  (pySplitlines (List.intercalate nl (fallbackKeptLines c))).take 8

/-- The excerpt `sample` appearing at the end of the fallback reply. -/
def fallbackSample (c : BlogCache) : List Char :=
  List.intercalate nl (fallbackSampleLines c)

/-- The fallback responder `local_fallback_reply` (src/app.py lines 158-171); Python's
`user or 'General question'` substitutes the default exactly when `user`
is the empty string. -/
def local_fallback_reply (c : BlogCache) (user : List Char) : List Char :=
  fallbackPreamble ++ (questionTag ++
    ((if user = [] then ("General question").data else user) ++
      (fallbackTail ++ fallbackSample c)))

/-- The fixed domain-constraint directive `usa_prompt`
(src/app.py lines 177-190), a triple-quoted literal including its
indentation. -/
def usaPrompt : List Char :=
  ("\n    🇺🇸 ONLY ANSWER ABOUT USA-RELATED TOPICS\n    ✅ USA VISA / SSN / BANK / HOUSING / UBER / TAX / HEALTH\n    • Add emoji to each step: ✅ 🚀 💰 📱 🏠 🪪 ✈️ 🏥 💳\n    • CAPITALIZE important words\n    • Short paragraphs, long lists\n    • USE OUTPUT TEMPLATE:\n      1) Quick Summary (3 items)\n      2) Step-by-Step Checklist\n      3) Common Mistakes / Risks\n      4) Official Links (if available)\n      5) Next Step (one clear recommendation)\n    ⚠️ USA / NJ / NY ONLY!\n    ").data

/-- Behaviour of the generation request in `call_vertex`: a network
exception during the POST, a non-success HTTP status, or a success whose
body either yields `candidates[0].content.parts[0].text` (`some`) or has a
shape mismatch raising a caught exception (`none`). -/
inductive VertexResult where
  | exc : VertexResult
  | notOk : VertexResult
  | ok : Option (List Char) → VertexResult
  deriving DecidableEq, Repr

/-- Result of `call_vertex` / `llm`: the returned text, the token cache
after the call, and how many network requests (metadata + generation) were
issued. -/
structure LlmResult where
  text : List Char
  tcache : TokenCache
  requests : Nat
  deriving DecidableEq, Repr

/-- The inference client `call_vertex` (src/app.py lines 60-91).  `project` is the value of
`GOOGLE_CLOUD_PROJECT`, with `[]` for unset-or-empty (both falsy). -/
def call_vertex (project : List Char) (env_token : Option (List Char))
    (meta : MetaResult) (vres : VertexResult) (now : Int) (tc : TokenCache)
    (_prompt : List Char) : LlmResult :=
  if project = [] then { text := [], tcache := tc, requests := 0 }
  else
    let r := get_access_token now env_token meta tc
    if r.token = [] then { text := [], tcache := r.cache, requests := r.requests }
    else
      match vres with
      | VertexResult.exc => { text := [], tcache := r.cache, requests := r.requests + 1 }
      | VertexResult.notOk => { text := [], tcache := r.cache, requests := r.requests + 1 }
      | VertexResult.ok none => { text := [], tcache := r.cache, requests := r.requests + 1 }
      | VertexResult.ok (some t) => { text := t, tcache := r.cache, requests := r.requests + 1 }

/-- The orchestrator `llm` (src/app.py lines 173-204), the end-to-end
`answer(task_system_prompt, user_question)` entry point of the spec. -/
def llm (project : List Char) (env_token : Option (List Char))
    (meta : MetaResult) (vres : VertexResult) (now : Int) (tc : TokenCache)
    (bc : BlogCache) (system user : List Char) : LlmResult :=
  if project = [] then
    { text := local_fallback_reply bc user, tcache := tc, requests := 0 }
  else
    let full_system := system ++ ("\n\n").data ++ usaPrompt ++
      ("\n\nReference data:\n").data ++ get_context bc
    let r := call_vertex project env_token meta vres now tc
      (full_system ++ ("\n\nUser question:\n").data ++ user)
    if r.text = [] then
      { text := local_fallback_reply bc user, tcache := r.tcache, requests := r.requests }
    else
      { text := sanitize r.text, tcache := r.tcache, requests := r.requests }

/-- A Boolean-to-Prop bridge: `List.isPrefixOf` evaluating to `true` is
implied by `<+:`. -/
lemma isPrefixOf_of_pre {l₁ l₂ : List Char} (h : l₁ <+: l₂) :
    List.isPrefixOf l₁ l₂ = true := by
  induction l₁ generalizing l₂ with
  | nil => simp [List.isPrefixOf]
  | cons a as ih =>
    obtain ⟨t, ht⟩ := h
    cases l₂ with
    | nil => exact absurd ht (by simp)
    | cons b bs =>
      rw [List.cons_append] at ht
      injection ht with h1 h2
      simp [List.isPrefixOf, h1, ih ⟨t, h2⟩]

/-- C6: when no project identifier is configured, (a) `call_vertex` returns
the empty string, leaves the token cache untouched and issues no network
request at all (no metadata request, no generation request), and (b) the
end-to-end `llm` answer is exactly the local fallback reply, which starts
with the fixed fallback preamble text and ends with the excerpt built from
at most 8 non-separator lines of the current reference content. -/
theorem unconfigured_no_network_fallback (project : List Char)
    (env_token : Option (List Char)) (meta : MetaResult) (vres : VertexResult)
    (now : Int) (tc : TokenCache) (bc : BlogCache)
    (system user prompt : List Char) (h : project = []) :
    call_vertex project env_token meta vres now tc prompt
      = { text := [], tcache := tc, requests := 0 } ∧
    llm project env_token meta vres now tc bc system user
      = { text := local_fallback_reply bc user, tcache := tc, requests := 0 } ∧
    fallbackPreamble <+: (llm project env_token meta vres now tc bc system user).text ∧
    fallbackSample bc <:+ (llm project env_token meta vres now tc bc system user).text ∧
    (fallbackSampleLines bc).length ≤ 8 := by
  have hcv : call_vertex project env_token meta vres now tc prompt
      = { text := [], tcache := tc, requests := 0 } := by
    rw [call_vertex.eq_def, if_pos h]
  have hllm : llm project env_token meta vres now tc bc system user
      = { text := local_fallback_reply bc user, tcache := tc, requests := 0 } := by
    rw [llm.eq_def, if_pos h]
  refine ⟨hcv, hllm, ?_, ?_, List.length_take_le _ _⟩
  · rw [hllm]
    exact ⟨_, rfl⟩
  · rw [hllm]
    refine ⟨fallbackPreamble ++ (questionTag ++
      ((if user = [] then ("General question").data else user) ++ fallbackTail)), ?_⟩
    simp [local_fallback_reply, List.append_assoc]

/-- C6 witness: the theorem applied at a concrete unconfigured environment. -/
theorem unconfigured_no_network_fallback_witness :
    ([] : List Char) = [] ∧
    (call_vertex [] none MetaResult.exc VertexResult.exc 3 exTokenCache (("p").data)
      = { text := [], tcache := exTokenCache, requests := 0 } ∧
    llm [] none MetaResult.exc VertexResult.exc 3 exTokenCache exCache (("s").data) (("q").data)
      = { text := local_fallback_reply exCache (("q").data), tcache := exTokenCache,
          requests := 0 } ∧
    fallbackPreamble <+:
      (llm [] none MetaResult.exc VertexResult.exc 3 exTokenCache exCache
        (("s").data) (("q").data)).text ∧
    fallbackSample exCache <:+
      (llm [] none MetaResult.exc VertexResult.exc 3 exTokenCache exCache
        (("s").data) (("q").data)).text ∧
    (fallbackSampleLines exCache).length ≤ 8) :=
  ⟨rfl, unconfigured_no_network_fallback [] none MetaResult.exc VertexResult.exc 3
    exTokenCache exCache (("s").data) (("q").data) (("p").data) rfl⟩

/-- The initial text of the fallback reply as the original claim states it,
without the leading warning emoji. -/
def missingMsg : List Char := ("Vertex AI configuration is missing").data

/-- The same text preceded by the warning emoji, as the code writes it. -/
def missingMsgEmoji : List Char := ("⚠️ Vertex AI configuration is missing").data

/-- C2 (amended): with no project identifier configured and the reference
cache holding the static fallback corpus, the end-to-end answer for any
user question begins with the text "⚠️ Vertex AI configuration is missing"
(a warning emoji precedes the words) and contains the literal question
text. -/
theorem fallback_reply_format (env_token : Option (List Char)) (meta : MetaResult)
    (vres : VertexResult) (now t : Int) (tc : TokenCache) (system user : List Char) :
    missingMsgEmoji <+:
      (llm [] env_token meta vres now tc { content := fallbackData, last := t }
        system user).text ∧
    user <:+:
      (llm [] env_token meta vres now tc { content := fallbackData, last := t }
        system user).text := by
  have hllm : (llm [] env_token meta vres now tc { content := fallbackData, last := t }
      system user).text
      = local_fallback_reply { content := fallbackData, last := t } user := by
    rw [llm.eq_def, if_pos rfl]
  rw [hllm]
  constructor
  · have hsplit : missingMsgEmoji ++
        ((", so showing a quick guide summary instead of an AI response.\n\n").data)
        = fallbackPreamble := by decide
    refine ⟨(", so showing a quick guide summary instead of an AI response.\n\n").data ++
      (questionTag ++ ((if user = [] then ("General question").data else user) ++
        (fallbackTail ++ fallbackSample { content := fallbackData, last := t }))), ?_⟩
    rw [local_fallback_reply, ← hsplit, List.append_assoc]
  · by_cases hu : user = []
    · exact ⟨[], local_fallback_reply { content := fallbackData, last := t } user,
        by simp [hu]⟩
    · refine ⟨fallbackPreamble ++ questionTag,
        fallbackTail ++ fallbackSample { content := fallbackData, last := t }, ?_⟩
      rw [local_fallback_reply, if_neg hu]
      simp [List.append_assoc]

/-- The question of the C2 scenario. -/
def exQuestion : List Char := ("Can I open a bank account without SSN?").data

/-- C2 counterexample: in the claimed scenario (no project id, cache holding
the static fallback corpus) the answer does NOT begin with the text
"Vertex AI configuration is missing" — the code's reply begins with a
warning emoji and a space before those words. -/
theorem fallback_reply_head_cex :
    ¬ (missingMsg <+:
      (llm [] none MetaResult.exc VertexResult.exc 0 { value := [], expires_at := 0 }
        { content := fallbackData, last := 0 } [] exQuestion).text) := by
  intro hp
  have hT := isPrefixOf_of_pre hp
  have hF : List.isPrefixOf missingMsg
      ((llm [] none MetaResult.exc VertexResult.exc 0 { value := [], expires_at := 0 }
        { content := fallbackData, last := 0 } [] exQuestion).text) = false := by rfl
  rw [hT] at hF
  exact Bool.noConfusion hF

end USAGuide
